import Mathlib

/-!
Verification of the job-listing aggregation pipeline of the Carrer- repository.

The definitions below are a shallow embedding of `src/jobs_scraper.py`
(class `JobScraper`) and `src/job_api_client.py` (class `JobAPIClient`).
Network interaction is made explicit: every adapter takes, besides the
parameters of the corresponding Python method, the parsed payload the
network would deliver (`none` models a network/HTTP error caught by the
method's `try/except`, which makes the adapter return the empty list).
Python string primitives (`str.lower`, slicing `s[:n]`, `str.split()`,
the `in` substring test) are embedded as structural functions on the
character list of a `String`, matching Python's per-code-point semantics.
-/

namespace Career

/-- Embedding of Python `str.lower()` (per-character lowering; the strings
occurring in this pipeline are ASCII, where this agrees with Python). -/
def pyLower (s : String) : String := String.mk (s.data.map Char.toLower)

/-- Embedding of the Python slice `s[:n]`: the first `n` characters. -/
def pySlice (s : String) (n : Nat) : String := String.mk (s.data.take n)

/-- Auxiliary for `pySplit`: scans the characters, accumulating the current
word in reverse; whitespace ends the current word (empty runs produce
no word), as Python's argumentless `str.split()` does. -/
def pySplitAux : List Char → List Char → List String
  | [], acc => if acc = [] then [] else [String.mk acc.reverse]
  | c :: cs, acc =>
    if c.isWhitespace then
      if acc = [] then pySplitAux cs []
      else String.mk acc.reverse :: pySplitAux cs []
    else pySplitAux cs (c :: acc)

/-- Embedding of Python `str.split()` with no separator: split on runs of
whitespace, dropping empty pieces. -/
def pySplit (s : String) : List String := pySplitAux s.data []

/-- Bool test that `needle` is a prefix of `hay` (on character lists). -/
def startsWithL : List Char → List Char → Bool
  | [], _ => true
  | _ :: _, [] => false
  | a :: as, b :: bs => a == b && startsWithL as bs

/-- Embedding of Python `needle in hay` (substring containment; the empty
needle is contained in every string, as in Python). -/
def isSubstrL (needle : List Char) : List Char → Bool
  | [] => needle.isEmpty
  | h :: t => startsWithL needle (h :: t) || isSubstrL needle t

/-- Python substring test `needle in hay` on `String`s. -/
def pyIn (needle hay : String) : Bool := isSubstrL needle.data hay.data

/-- Canonical job-posting record: the dict shape produced by every adapter
of `jobs_scraper.py` and `job_api_client.py`.  The optional metadata keys
that only some adapters emit (`posted_date`, `employment_type`,
`contract_type`, `tags`) default to the empty string for adapters that do
not set them. -/
structure Job where
  title : String
  company : String
  location : String
  salary : String
  description : String
  apply_link : String
  source : String
  posted_date : String := ""
  employment_type : String := ""
  contract_type : String := ""
  tags : String := ""
  deriving Repr, DecidableEq

/-- The fixed ten-posting fallback dataset `JobScraper.sample_jobs`
(`jobs_scraper.py`, lines 35-126), verbatim. -/
def sample_jobs : List Job :=
  [ { title := "Data Scientist", company := "TechCorp India",
      location := "Bangalore, India", salary := "₹8-15 LPA",
      description := "Looking for a Data Scientist with Python, ML, and SQL skills.",
      apply_link := "https://example.com/apply/1", source := "Sample Data" },
    { title := "Machine Learning Engineer", company := "AI Solutions Pvt Ltd",
      location := "Mumbai, India", salary := "₹10-18 LPA",
      description := "ML Engineer position requiring Python, TensorFlow, and cloud experience.",
      apply_link := "https://example.com/apply/2", source := "Sample Data" },
    { title := "Software Developer", company := "DevTech Solutions",
      location := "Delhi, India", salary := "₹6-12 LPA",
      description := "Full-stack developer with Java, Spring Boot, and React skills.",
      apply_link := "https://example.com/apply/3", source := "Sample Data" },
    { title := "Business Analyst", company := "Business Intelligence Corp",
      location := "Pune, India", salary := "₹5-10 LPA",
      description := "Business Analyst with SQL, Excel, and analytical skills.",
      apply_link := "https://example.com/apply/4", source := "Sample Data" },
    { title := "Web Developer", company := "WebCraft Studios",
      location := "Chennai, India", salary := "₹4-8 LPA",
      description := "Frontend developer with HTML, CSS, JavaScript, and React.",
      apply_link := "https://example.com/apply/5", source := "Sample Data" },
    { title := "Data Engineer", company := "DataFlow Systems",
      location := "Hyderabad, India", salary := "₹7-14 LPA",
      description := "Data Engineer with Python, SQL, Apache Spark, and cloud experience.",
      apply_link := "https://example.com/apply/6", source := "Sample Data" },
    { title := "ML Engineer", company := "Machine Learning Hub",
      location := "Bangalore, India", salary := "₹9-16 LPA",
      description := "ML Engineer with Python, scikit-learn, and MLOps experience.",
      apply_link := "https://example.com/apply/7", source := "Sample Data" },
    { title := "Backend Developer", company := "API Solutions",
      location := "Gurgaon, India", salary := "₹6-11 LPA",
      description := "Backend developer with Java, Spring Boot, and microservices.",
      apply_link := "https://example.com/apply/8", source := "Sample Data" },
    { title := "Data Analyst", company := "Analytics Pro",
      location := "Mumbai, India", salary := "₹5-9 LPA",
      description := "Data Analyst with Python, R, SQL, and visualization tools.",
      apply_link := "https://example.com/apply/9", source := "Sample Data" },
    { title := "Full Stack Developer", company := "FullStack Solutions",
      location := "Pune, India", salary := "₹7-13 LPA",
      description := "Full-stack developer with React, Node.js, and database skills.",
      apply_link := "https://example.com/apply/10", source := "Sample Data" } ]

/-- Keyword test of `JobScraper.get_sample_jobs` (lines 367-369): some
whitespace-separated keyword of the lowercased query occurs as a substring
of the sample posting's lowercased title. -/
def titleMatches (job_title_lower : String) (j : Job) : Bool :=
  (pySplit job_title_lower).any (fun keyword => pyIn keyword (pyLower j.title))

/-- Embedding of `JobScraper.get_sample_jobs` (lines 352-375): filter the
sample postings by keyword overlap with the query title; if nothing
matches, fall back to the first `max_jobs` sample postings; finally take
at most `max_jobs`. -/
def get_sample_jobs (job_title : String) (max_jobs : Nat) : List Job :=
  let filtered := sample_jobs.filter (titleMatches (pyLower job_title))
  let filtered2 := if filtered = [] then sample_jobs.take max_jobs else filtered
  filtered2.take max_jobs

/-- One "job card" DOM node as the scrape adapters consume it: each field
holds the stripped text of the corresponding sub-element when that
element is present (for the link fields, the `href` attribute value when
the anchor and its attribute are present), and `none` otherwise. -/
structure Card where
  titleElem : Option String := none
  companyElem : Option String := none
  locationElem : Option String := none
  salaryElem : Option String := none
  linkElem : Option String := none
  descElem : Option String := none
  deriving Repr, DecidableEq

/-- Per-card extraction of `JobScraper.scrape_linkedin_jobs`
(lines 156-188): sentinel defaulting for each missing element.  The
extraction is total, so the per-card `except: continue` of the source is
unreachable in this model. -/
def parse_linkedin_card (location : String) (card : Card) : Job :=
  { title := card.titleElem.getD "N/A",
    company := card.companyElem.getD "N/A",
    location := card.locationElem.getD location,
    salary := card.salaryElem.getD "Not specified",
    description := card.descElem.getD "No description available",
    apply_link := card.linkElem.getD "#",
    source := "LinkedIn" }

/-- Per-card extraction of `JobScraper.scrape_indeed_jobs` (lines 231-263):
the apply link is the anchor inside the title element, prefixed with the
Indeed host; it is `"#"` when the title element or its link is absent. -/
def parse_indeed_card (location : String) (card : Card) : Job :=
  { title := card.titleElem.getD "N/A",
    company := card.companyElem.getD "N/A",
    location := card.locationElem.getD location,
    salary := card.salaryElem.getD "Not specified",
    description := card.descElem.getD "No description available",
    apply_link :=
      match card.titleElem, card.linkElem with
      | some _, some href => "https://in.indeed.com" ++ href
      | _, _ => "#",
    source := "Indeed" }

/-- Per-card extraction of `JobScraper.scrape_naukri_jobs` (lines 306-337):
the salary is hard-coded to `"Not specified"`, and the apply link is the
`href` of the title anchor when present. -/
def parse_naukri_card (location : String) (card : Card) : Job :=
  { title := card.titleElem.getD "N/A",
    company := card.companyElem.getD "N/A",
    location := card.locationElem.getD location,
    salary := "Not specified",
    description := card.descElem.getD "No description available",
    apply_link :=
      match card.titleElem, card.linkElem with
      | some _, some href => href
      | _, _ => "#",
    source := "Naukri" }

/-- Embedding of `JobScraper.scrape_linkedin_jobs` (lines 128-201).
`env = none` models the HTTP GET or parse failing (the outer `except`
returns the empty accumulator); `env = some cards` is the list of
`job-search-card` nodes found, of which `cards[:max_jobs]` are parsed. -/
def scrape_linkedin_jobs (job_title location : String) (max_jobs : Nat)
    (env : Option (List Card)) : List Job :=
  match env with
  | none => []
  | some cards => (cards.take max_jobs).map (parse_linkedin_card location)

/-- Embedding of `JobScraper.scrape_indeed_jobs` (lines 203-276). -/
def scrape_indeed_jobs (job_title location : String) (max_jobs : Nat)
    (env : Option (List Card)) : List Job :=
  match env with
  | none => []
  | some cards => (cards.take max_jobs).map (parse_indeed_card location)

/-- Embedding of `JobScraper.scrape_naukri_jobs` (lines 278-350). -/
def scrape_naukri_jobs (job_title location : String) (max_jobs : Nat)
    (env : Option (List Card)) : List Job :=
  match env with
  | none => []
  | some cards => (cards.take max_jobs).map (parse_naukri_card location)

/-- Network environment of one `scrape_jobs` call: what each portal's
HTTP GET would deliver (`none` = request error, `some cards` = the parsed
job cards). -/
structure ScrapeEnv where
  linkedin : Option (List Card) := none
  indeed : Option (List Card) := none
  naukri : Option (List Card) := none
  deriving Repr, DecidableEq

/-- Deduplication-and-truncation loop of `JobScraper.scrape_jobs`
(lines 425-435): first occurrence of each exact title string is kept;
after appending a job, the loop breaks as soon as the output has reached
`max_jobs` entries.  `seen` is the set of already-kept titles and `count`
the number of jobs already kept. -/
def dedupTruncAux (max_jobs : Nat) (seen : List String) (count : Nat) :
    List Job → List Job
  | [] => []
  | job :: rest =>
    if job.title ∈ seen then dedupTruncAux max_jobs seen count rest
    else if max_jobs ≤ count + 1 then [job]
    else job :: dedupTruncAux max_jobs (job.title :: seen) (count + 1) rest

/-- The dedup-and-truncate pass of `JobScraper.scrape_jobs`, started with
an empty `seen` set. -/
def dedupTrunc (max_jobs : Nat) (jobs : List Job) : List Job :=
  dedupTruncAux max_jobs [] 0 jobs

/-- Combined live phase of `JobScraper.scrape_jobs` (lines 394-418): the
three scrape adapters are invoked in order LinkedIn, Indeed, Naukri, each
with quota `max_jobs // 3`, and their outputs concatenated. -/
def liveJobs (job_title location : String) (max_jobs : Nat)
    (env : ScrapeEnv) : List Job :=
  scrape_linkedin_jobs job_title location (max_jobs / 3) env.linkedin
    ++ scrape_indeed_jobs job_title location (max_jobs / 3) env.indeed
    ++ scrape_naukri_jobs job_title location (max_jobs / 3) env.naukri

/-- Embedding of `JobScraper.scrape_jobs` (lines 377-438).  The second
component counts the adapter invocations that issue a network request:
the sample path performs none, the live path always attempts all three
portals (each scraper issues its HTTP GET regardless of its quota). -/
def scrape_jobs (job_title location : String) (max_jobs : Nat)
    (use_sample : Bool) (env : ScrapeEnv) : List Job × Nat :=
  if use_sample then (get_sample_jobs job_title max_jobs, 0)
  else
    let all0 := liveJobs job_title location max_jobs env
    let all1 := if all0 = [] then get_sample_jobs job_title max_jobs else all0
    (dedupTrunc max_jobs all1, 3)

/-- Credential configuration of `JobAPIClient.__init__` (lines 27-29):
each key is the corresponding environment variable, with the empty string
standing for "not set" exactly as `os.getenv(..., '')` does. -/
structure APIKeys where
  rapidapi_key : String := ""
  adzuna_app_id : String := ""
  adzuna_app_key : String := ""
  deriving Repr, DecidableEq

/-- Python truthiness of an optional number (`None`, `0` falsy). -/
def pyTruthyInt : Option Int → Bool
  | none => false
  | some n => !(n == 0)

/-- Thousands grouping on a reversed digit list: a comma after every
three digits, as Python's format spec `,` inserts. -/
def commaGroupDigits : List Char → List Char
  | a :: b :: c :: d :: rest => a :: b :: c :: ',' :: commaGroupDigits (d :: rest)
  | l => l

/-- Rendering of an integer the way Python's `f"{x:,.0f}"` renders it
(salaries are modelled as integers; the float rounding of the source is
outside the model). -/
def commaGroupInt (n : Int) : String :=
  let digits := String.mk ((commaGroupDigits (Nat.toDigits 10 n.natAbs).reverse).reverse)
  if n < 0 then "-" ++ digits else digits

/-- Rendering used inside the salary formatters for a field the guard has
established to be present. -/
def salDigits : Option Int → String
  | none => ""
  | some n => commaGroupInt n

/-- Embedding of `JobAPIClient._format_salary` (lines 252-260). -/
def format_salary (min_sal max_sal : Option Int) : String :=
  if pyTruthyInt min_sal && pyTruthyInt max_sal then
    "$" ++ salDigits min_sal ++ "-$" ++ salDigits max_sal
  else if pyTruthyInt min_sal then "$" ++ salDigits min_sal ++ "+"
  else if pyTruthyInt max_sal then "Up to $" ++ salDigits max_sal
  else "Not specified"

/-- Embedding of `JobAPIClient._format_salary_range` (lines 262-270). -/
def format_salary_range (min_sal max_sal : Option Int) : String :=
  if pyTruthyInt min_sal && pyTruthyInt max_sal then
    "₹" ++ salDigits min_sal ++ "-₹" ++ salDigits max_sal
  else if pyTruthyInt min_sal then "₹" ++ salDigits min_sal ++ "+"
  else if pyTruthyInt max_sal then "Up to ₹" ++ salDigits max_sal
  else "Not specified"

/-- Python `x or y` on strings (the empty string is falsy). -/
def pyOrStr (s default : String) : String := if s = "" then default else s

/-- One record of the RapidAPI JSearch payload's `data` array, with the
keys `fetch_from_rapidapi_jsearch` reads (`none` = key absent or null). -/
structure JSearchRec where
  job_title : Option String := none
  employer_name : Option String := none
  job_city : Option String := none
  job_min_salary : Option Int := none
  job_max_salary : Option Int := none
  job_description : Option String := none
  job_apply_link : Option String := none
  job_posted_at_datetime_utc : Option String := none
  job_employment_type : Option String := none
  deriving Repr, DecidableEq

/-- Embedding of `JobAPIClient.fetch_from_rapidapi_jsearch` (lines 36-92):
a missing key disables the adapter; a failed request (`payload = none`)
returns the empty list; otherwise the first `max_results` records of the
`data` array are mapped into jobs, with the description sliced to 500
characters. -/
def fetch_from_rapidapi_jsearch (keys : APIKeys) (job_title location : String)
    (max_results : Nat) (payload : Option (List JSearchRec)) : List Job :=
  if keys.rapidapi_key = "" then []
  else
    match payload with
    | none => []
    | some data =>
      (data.take max_results).map (fun job =>
        { title := job.job_title.getD "N/A",
          company := job.employer_name.getD "N/A",
          location := pyOrStr (job.job_city.getD location) location,
          salary := format_salary job.job_min_salary job.job_max_salary,
          description := pySlice (job.job_description.getD "No description available") 500,
          apply_link := job.job_apply_link.getD "#",
          source := "RapidAPI JSearch",
          posted_date := job.job_posted_at_datetime_utc.getD "",
          employment_type := job.job_employment_type.getD "Full-time" })

/-- One record of the Adzuna payload's `results` array, with the keys
`fetch_from_adzuna` reads; the nested `company.display_name` and
`location.display_name` lookups are flattened into one optional field. -/
structure AdzunaRec where
  title : Option String := none
  company_display_name : Option String := none
  location_display_name : Option String := none
  salary_min : Option Int := none
  salary_max : Option Int := none
  description : Option String := none
  redirect_url : Option String := none
  created : Option String := none
  contract_type : Option String := none
  deriving Repr, DecidableEq

/-- Embedding of `JobAPIClient.fetch_from_adzuna` (lines 94-150): missing
credentials disable the adapter; a failed request returns the empty list;
otherwise EVERY record of the `results` array is mapped — the source
passes `max_results` to the server as `results_per_page` but applies no
client-side cap. -/
def fetch_from_adzuna (keys : APIKeys) (job_title location : String)
    (max_results : Nat) (payload : Option (List AdzunaRec)) : List Job :=
  if keys.adzuna_app_id = "" || keys.adzuna_app_key = "" then []
  else
    match payload with
    | none => []
    | some results =>
      results.map (fun job =>
        { title := job.title.getD "N/A",
          company := job.company_display_name.getD "N/A",
          location := job.location_display_name.getD location,
          salary := format_salary_range job.salary_min job.salary_max,
          description := pySlice (job.description.getD "No description available") 500,
          apply_link := job.redirect_url.getD "#",
          source := "Adzuna",
          posted_date := job.created.getD "",
          contract_type := job.contract_type.getD "permanent" })

/-- One record of the RemoteOK payload array, with the keys
`fetch_from_remoteok` reads. -/
structure RemoteOKRec where
  position : Option String := none
  company : Option String := none
  location : Option String := none
  salary_min : Option Int := none
  salary_max : Option Int := none
  description : Option String := none
  url : Option String := none
  date : Option String := none
  tags : Option (List String) := none
  deriving Repr, DecidableEq

/-- Job built from one matching RemoteOK record (lines 181-191). -/
def remoteokJob (job : RemoteOKRec) : Job :=
  { title := job.position.getD "N/A",
    company := job.company.getD "N/A",
    location := job.location.getD "Remote",
    salary :=
      if pyTruthyInt job.salary_min then
        "$" ++ toString (job.salary_min.getD 0) ++ "-$" ++ toString (job.salary_max.getD 0)
      else "Not specified",
    description := pySlice (job.description.getD "No description available") 500,
    apply_link := job.url.getD "#",
    source := "RemoteOK",
    posted_date := job.date.getD "",
    tags := String.intercalate "," (job.tags.getD []) }

/-- Filter-and-cap loop of `fetch_from_remoteok` (lines 175-191): before
each record the loop stops once `max_results` jobs are collected; a record
is kept when the whole lowercased query, or any of its whitespace-separated
keywords, occurs in the record's lowercased `position`. -/
def remoteokLoop (title_lower : String) (max_results count : Nat) :
    List RemoteOKRec → List Job
  | [] => []
  | job :: rest =>
    if max_results ≤ count then []
    else
      let t := pyLower (job.position.getD "")
      if pyIn title_lower t || (pySplit title_lower).any (fun keyword => pyIn keyword t) then
        remoteokJob job :: remoteokLoop title_lower max_results (count + 1) rest
      else remoteokLoop title_lower max_results count rest

/-- Embedding of `JobAPIClient.fetch_from_remoteok` (lines 152-198): no
credentials are needed; a failed request returns the empty list; the
first payload item (API metadata) is skipped. -/
def fetch_from_remoteok (job_title : String) (max_results : Nat)
    (payload : Option (List RemoteOKRec)) : List Job :=
  match payload with
  | none => []
  | some data => remoteokLoop (pyLower job_title) max_results 0 (data.drop 1)

/-- Dedup key used by `JobAPIClient._remove_duplicates` (line 278):
the pair of the lowercased title and the lowercased company. -/
def dedupKey (j : Job) : String × String := (pyLower j.title, pyLower j.company)

/-- Loop of `JobAPIClient._remove_duplicates` (lines 272-283): keep the
first job carrying each dedup key. -/
def removeDupAux (seen : List (String × String)) : List Job → List Job
  | [] => []
  | job :: rest =>
    if dedupKey job ∈ seen then removeDupAux seen rest
    else job :: removeDupAux (dedupKey job :: seen) rest

/-- Embedding of `JobAPIClient._remove_duplicates`. -/
def remove_duplicates (jobs : List Job) : List Job := removeDupAux [] jobs

/-- Embedding of `JobAPIClient.fetch_all_sources` (lines 218-250): query
RapidAPI, Adzuna and RemoteOK in this order with the same per-source cap
and deduplicate the concatenation. -/
def fetch_all_sources (keys : APIKeys) (job_title location : String)
    (max_results_per_source : Nat) (p1 : Option (List JSearchRec))
    (p2 : Option (List AdzunaRec)) (p3 : Option (List RemoteOKRec)) : List Job :=
  remove_duplicates
    (fetch_from_rapidapi_jsearch keys job_title location max_results_per_source p1
      ++ fetch_from_adzuna keys job_title location max_results_per_source p2
      ++ fetch_from_remoteok job_title max_results_per_source p3)

/-! Helper lemmas about the deduplication loops. -/

/-- Bool test for equal exact titles, used to express first-occurrence
deduplication. -/
def sameTitle (a b : Job) : Bool := decide (a.title = b.title)

/-- Bool test for equal dedup keys (lowercased title and company). -/
def sameKey (a b : Job) : Bool := decide (dedupKey a = dedupKey b)

theorem dedupTruncAux_length_le (m : Nat) (l : List Job) :
    ∀ (seen : List String) (c : Nat), c < m →
      (dedupTruncAux m seen c l).length ≤ m - c := by
  induction l with
  | nil => intro seen c hc; simp [dedupTruncAux]
  | cons job rest ih =>
    intro seen c hc
    simp only [dedupTruncAux]
    split
    · exact ih seen c hc
    · split
      · simp only [List.length_singleton]; omega
      · rename_i h1 h2
        have := ih (job.title :: seen) (c + 1) (by omega)
        simp only [List.length_cons]
        omega

theorem mem_of_mem_dedupTruncAux (m : Nat) (l : List Job) :
    ∀ (seen : List String) (c : Nat) (x : Job),
      x ∈ dedupTruncAux m seen c l → x ∈ l := by
  induction l with
  | nil => intro seen c x hx; simp [dedupTruncAux] at hx
  | cons job rest ih =>
    intro seen c x hx
    simp only [dedupTruncAux] at hx
    split at hx
    · exact List.mem_cons_of_mem _ (ih seen c x hx)
    · split at hx
      · simp only [List.mem_singleton] at hx
        simp [hx]
      · rcases List.mem_cons.mp hx with h | h
        · simp [h]
        · exact List.mem_cons_of_mem _ (ih _ _ x h)

theorem dedupTruncAux_title_not_mem (m : Nat) (l : List Job) :
    ∀ (seen : List String) (c : Nat) (x : Job),
      x ∈ dedupTruncAux m seen c l → x.title ∉ seen := by
  induction l with
  | nil => intro seen c x hx; simp [dedupTruncAux] at hx
  | cons job rest ih =>
    intro seen c x hx
    simp only [dedupTruncAux] at hx
    split at hx
    · exact ih seen c x hx
    · rename_i hnot
      split at hx
      · simp only [List.mem_singleton] at hx
        subst hx; exact hnot
      · rcases List.mem_cons.mp hx with h | h
        · subst h; exact hnot
        · have hs := ih _ _ x h
          intro hmem
          exact hs (List.mem_cons_of_mem _ hmem)

theorem dedupTruncAux_pairwise (m : Nat) (l : List Job) :
    ∀ (seen : List String) (c : Nat),
      (dedupTruncAux m seen c l).Pairwise (fun a b => a.title ≠ b.title) := by
  induction l with
  | nil => intro seen c; simp [dedupTruncAux]
  | cons job rest ih =>
    intro seen c
    simp only [dedupTruncAux]
    split
    · exact ih seen c
    · split
      · simp
      · refine List.Pairwise.cons ?_ (ih (job.title :: seen) (c + 1))
        intro b hb hEq
        have hs := dedupTruncAux_title_not_mem m rest (job.title :: seen) (c + 1) b hb
        exact hs (by simp [hEq])

theorem dedupTruncAux_first_wins (m : Nat) (l : List Job) :
    ∀ (seen : List String) (c : Nat) (x : Job),
      x ∈ dedupTruncAux m seen c l →
        l.find? (fun y => sameTitle y x) = some x := by
  induction l with
  | nil => intro seen c x hx; simp [dedupTruncAux] at hx
  | cons job rest ih =>
    intro seen c x hx
    simp only [dedupTruncAux] at hx
    split at hx
    · rename_i hseen
      have hxseen := dedupTruncAux_title_not_mem m rest seen c x hx
      have hne : ¬ (sameTitle job x = true) := by
        simp only [sameTitle, decide_eq_true_eq]
        intro h; exact hxseen (h ▸ hseen)
      rw [@List.find?_cons_of_neg _ (fun y => sameTitle y x) job rest hne]
      exact ih seen c x hx
    · rename_i hseen
      split at hx
      · simp only [List.mem_singleton] at hx
        subst hx
        exact List.find?_cons_of_pos _ (by simp [sameTitle])
      · rcases List.mem_cons.mp hx with h | h
        · subst h
          exact List.find?_cons_of_pos _ (by simp [sameTitle])
        · have hx2 := dedupTruncAux_title_not_mem m rest (job.title :: seen) (c + 1) x h
          have hne : ¬ (sameTitle job x = true) := by
            simp only [sameTitle, decide_eq_true_eq]
            intro hq; exact hx2 (by simp [hq])
          rw [@List.find?_cons_of_neg _ (fun y => sameTitle y x) job rest hne]
          exact ih _ _ x h

theorem dedupTruncAux_ne_nil (m : Nat) (job : Job) (rest : List Job) :
    dedupTruncAux m [] 0 (job :: rest) ≠ [] := by
  simp only [dedupTruncAux, List.not_mem_nil, if_false]
  split <;> simp

theorem mem_removeDupAux (l : List Job) :
    ∀ (seen : List (String × String)) (x : Job),
      x ∈ removeDupAux seen l → x ∈ l := by
  induction l with
  | nil => intro seen x hx; simp [removeDupAux] at hx
  | cons job rest ih =>
    intro seen x hx
    simp only [removeDupAux] at hx
    split at hx
    · exact List.mem_cons_of_mem _ (ih seen x hx)
    · rcases List.mem_cons.mp hx with h | h
      · simp [h]
      · exact List.mem_cons_of_mem _ (ih _ x h)

theorem removeDupAux_key_not_mem (l : List Job) :
    ∀ (seen : List (String × String)) (x : Job),
      x ∈ removeDupAux seen l → dedupKey x ∉ seen := by
  induction l with
  | nil => intro seen x hx; simp [removeDupAux] at hx
  | cons job rest ih =>
    intro seen x hx
    simp only [removeDupAux] at hx
    split at hx
    · exact ih seen x hx
    · rename_i hnot
      rcases List.mem_cons.mp hx with h | h
      · subst h; exact hnot
      · have hs := ih _ x h
        intro hmem
        exact hs (List.mem_cons_of_mem _ hmem)

theorem removeDupAux_pairwise (l : List Job) :
    ∀ (seen : List (String × String)),
      (removeDupAux seen l).Pairwise (fun a b => dedupKey a ≠ dedupKey b) := by
  induction l with
  | nil => intro seen; simp [removeDupAux]
  | cons job rest ih =>
    intro seen
    simp only [removeDupAux]
    split
    · exact ih seen
    · refine List.Pairwise.cons ?_ (ih (dedupKey job :: seen))
      intro b hb hEq
      have hs := removeDupAux_key_not_mem rest (dedupKey job :: seen) b hb
      exact hs (by simp [hEq])

theorem removeDupAux_first_wins (l : List Job) :
    ∀ (seen : List (String × String)) (x : Job),
      x ∈ removeDupAux seen l → l.find? (fun y => sameKey y x) = some x := by
  induction l with
  | nil => intro seen x hx; simp [removeDupAux] at hx
  | cons job rest ih =>
    intro seen x hx
    simp only [removeDupAux] at hx
    split at hx
    · rename_i hseen
      have hxseen := removeDupAux_key_not_mem rest seen x hx
      have hne : ¬ (sameKey job x = true) := by
        simp only [sameKey, decide_eq_true_eq]
        intro h; exact hxseen (h ▸ hseen)
      rw [@List.find?_cons_of_neg _ (fun y => sameKey y x) job rest hne]
      exact ih seen x hx
    · rcases List.mem_cons.mp hx with h | h
      · subst h
        exact List.find?_cons_of_pos _ (by simp [sameKey])
      · have hx2 := removeDupAux_key_not_mem rest (dedupKey job :: seen) x h
        have hne : ¬ (sameKey job x = true) := by
          simp only [sameKey, decide_eq_true_eq]
          intro hq; exact hx2 (by simp [hq])
        rw [@List.find?_cons_of_neg _ (fun y => sameKey y x) job rest hne]
        exact ih _ x h

theorem removeDupAux_sublist (l : List Job) :
    ∀ (seen : List (String × String)), (removeDupAux seen l).Sublist l := by
  induction l with
  | nil => intro seen; simp [removeDupAux]
  | cons job rest ih =>
    intro seen
    simp only [removeDupAux]
    split
    · exact List.Sublist.cons _ (ih seen)
    · exact List.Sublist.cons₂ _ (ih _)

/-! Helper lemmas about the sample adapter. -/

theorem get_sample_jobs_length_le (t : String) (m : Nat) :
    (get_sample_jobs t m).length ≤ m := by
  simp only [get_sample_jobs]
  exact List.length_take_le m _

theorem get_sample_jobs_zero (t : String) : get_sample_jobs t 0 = [] := by
  simp [get_sample_jobs]

theorem mem_get_sample_jobs (t : String) (m : Nat) (x : Job) :
    x ∈ get_sample_jobs t m → x ∈ sample_jobs := by
  simp only [get_sample_jobs]
  intro hx
  have hx2 := List.mem_of_mem_take hx
  split at hx2
  · exact List.mem_of_mem_take hx2
  · exact (List.mem_filter.mp hx2).1

theorem sample_jobs_source : ∀ j ∈ sample_jobs, j.source = "Sample Data" := by
  decide

theorem get_sample_jobs_ne_nil (t : String) (m : Nat) (hm : 1 ≤ m) :
    get_sample_jobs t m ≠ [] := by
  simp only [get_sample_jobs, ne_eq, List.take_eq_nil_iff]
  push_neg
  constructor
  · omega
  · split
    · simp only [ne_eq, List.take_eq_nil_iff]
      push_neg
      exact ⟨by omega, by simp [sample_jobs]⟩
    · assumption

/-! Helper lemmas about the scrape adapters. -/

theorem scrape_linkedin_jobs_length_le (t loc : String) (m : Nat)
    (env : Option (List Card)) : (scrape_linkedin_jobs t loc m env).length ≤ m := by
  cases env <;> simp [scrape_linkedin_jobs, List.length_take_le]

theorem scrape_indeed_jobs_length_le (t loc : String) (m : Nat)
    (env : Option (List Card)) : (scrape_indeed_jobs t loc m env).length ≤ m := by
  cases env <;> simp [scrape_indeed_jobs, List.length_take_le]

theorem scrape_naukri_jobs_length_le (t loc : String) (m : Nat)
    (env : Option (List Card)) : (scrape_naukri_jobs t loc m env).length ≤ m := by
  cases env <;> simp [scrape_naukri_jobs, List.length_take_le]

theorem scrape_linkedin_jobs_zero (t loc : String) (env : Option (List Card)) :
    scrape_linkedin_jobs t loc 0 env = [] := by
  cases env <;> simp [scrape_linkedin_jobs]

theorem scrape_indeed_jobs_zero (t loc : String) (env : Option (List Card)) :
    scrape_indeed_jobs t loc 0 env = [] := by
  cases env <;> simp [scrape_indeed_jobs]

theorem scrape_naukri_jobs_zero (t loc : String) (env : Option (List Card)) :
    scrape_naukri_jobs t loc 0 env = [] := by
  cases env <;> simp [scrape_naukri_jobs]

theorem scrape_linkedin_jobs_source (t loc : String) (m : Nat)
    (env : Option (List Card)) :
    ∀ j ∈ scrape_linkedin_jobs t loc m env, j.source = "LinkedIn" := by
  cases env with
  | none => simp [scrape_linkedin_jobs]
  | some cards =>
    intro j hj
    simp only [scrape_linkedin_jobs, List.mem_map] at hj
    obtain ⟨c, _, hc⟩ := hj
    subst hc
    rfl

theorem scrape_indeed_jobs_source (t loc : String) (m : Nat)
    (env : Option (List Card)) :
    ∀ j ∈ scrape_indeed_jobs t loc m env, j.source = "Indeed" := by
  cases env with
  | none => simp [scrape_indeed_jobs]
  | some cards =>
    intro j hj
    simp only [scrape_indeed_jobs, List.mem_map] at hj
    obtain ⟨c, _, hc⟩ := hj
    subst hc
    rfl

theorem scrape_naukri_jobs_source (t loc : String) (m : Nat)
    (env : Option (List Card)) :
    ∀ j ∈ scrape_naukri_jobs t loc m env, j.source = "Naukri" := by
  cases env with
  | none => simp [scrape_naukri_jobs]
  | some cards =>
    intro j hj
    simp only [scrape_naukri_jobs, List.mem_map] at hj
    obtain ⟨c, _, hc⟩ := hj
    subst hc
    rfl

theorem liveJobs_zero_quota (t loc : String) (m : Nat) (env : ScrapeEnv)
    (h : m / 3 = 0) : liveJobs t loc m env = [] := by
  simp only [liveJobs, h]
  rw [scrape_linkedin_jobs_zero, scrape_indeed_jobs_zero, scrape_naukri_jobs_zero]
  rfl

theorem liveJobs_source (t loc : String) (m : Nat) (env : ScrapeEnv) :
    ∀ j ∈ liveJobs t loc m env,
      j.source = "LinkedIn" ∨ j.source = "Indeed" ∨ j.source = "Naukri" := by
  intro j hj
  simp only [liveJobs, List.mem_append] at hj
  rcases hj with (h | h) | h
  · exact Or.inl (scrape_linkedin_jobs_source t loc _ env.linkedin j h)
  · exact Or.inr (Or.inl (scrape_indeed_jobs_source t loc _ env.indeed j h))
  · exact Or.inr (Or.inr (scrape_naukri_jobs_source t loc _ env.naukri j h))

/-- Length bound of the RemoteOK filter-and-cap loop. -/
theorem remoteokLoop_length_le (tl : String) (lim : Nat) (l : List RemoteOKRec) :
    ∀ (c : Nat), (remoteokLoop tl lim c l).length ≤ lim - c := by
  induction l with
  | nil => intro c; simp [remoteokLoop]
  | cons job rest ih =>
    intro c
    simp only [remoteokLoop]
    split
    · simp
    · rename_i hlt
      split
      · have := ih (c + 1)
        simp only [List.length_cons]
        omega
      · exact ih c

/-- Every character-level slice `pySlice s n` has at most `n` characters. -/
theorem pySlice_length_le (s : String) (n : Nat) : (pySlice s n).length ≤ n :=
  List.length_take_le n s.data

/-- Descriptions built by the RemoteOK loop are capped at 500 characters. -/
theorem remoteokLoop_desc_le (tl : String) (lim : Nat) (l : List RemoteOKRec) :
    ∀ (c : Nat) (j : Job), j ∈ remoteokLoop tl lim c l →
      j.description.length ≤ 500 := by
  induction l with
  | nil => intro c j hj; simp [remoteokLoop] at hj
  | cons job rest ih =>
    intro c j hj
    simp only [remoteokLoop] at hj
    split at hj
    · simp at hj
    · split at hj
      · rcases List.mem_cons.mp hj with h | h
        · subst h; exact pySlice_length_le _ 500
        · exact ih _ j h
      · exact ih _ j hj

/-- The descriptions of the bundled sample postings are all short. -/
theorem sample_jobs_desc_le : ∀ j ∈ sample_jobs, j.description.length ≤ 500 := by
  decide

/-! Concrete fixtures used by counterexamples and witnesses. -/

/-- Network environment in which every portal request fails. -/
def envNone : ScrapeEnv := {}

/-- A LinkedIn job card with title "Dev" at company "A". -/
def cardDevUpper : Card := { titleElem := some "Dev", companyElem := some "A" }

/-- A LinkedIn job card with title "dev" (lowercase) at company "A". -/
def cardDevLower : Card := { titleElem := some "dev", companyElem := some "A" }

/-- Environment in which LinkedIn returns two cards whose postings differ
only in the casing of the title. -/
def envDup : ScrapeEnv := { linkedin := some [cardDevUpper, cardDevLower] }

/-- Credential configuration with every API key present. -/
def keysAll : APIKeys :=
  { rapidapi_key := "k", adzuna_app_id := "id", adzuna_app_key := "key" }

/-- A LinkedIn job card whose description snippet has 501 characters. -/
def cardLong : Card := { descElem := some (String.mk (List.replicate 501 'a')) }

/-! Theorems settling the claims. -/

/-- C1 (counterexample): the aggregation `scrape_jobs` deduplicates by the
exact title string only, so with two live postings "Dev"/"A" and "dev"/"A"
the returned list contains two postings sharing the dedup key
`(lowercase(title), lowercase(company))`, refuting the claim as stated. -/
theorem C1_counterexample :
    ¬ ((scrape_jobs "developer" "India" 10 false envDup).1.Pairwise
        (fun a b => dedupKey a ≠ dedupKey b)) := by
  decide

/-- C1 (amended): deduplication is order-preserving with the first
occurrence kept, but the key differs per component: `scrape_jobs` keys on
the exact (case-sensitive) title alone — its results have pairwise
distinct titles and each kept posting is the first posting carrying its
title in the combined source-priority-ordered list — while
`JobAPIClient._remove_duplicates` keys on
`(lowercase(title), lowercase(company))`, yielding pairwise distinct
dedup keys, first occurrence kept, order preserved (a sublist of its
input). -/
theorem C1_dedup_first_wins (title loc : String) (m : Nat) (env : ScrapeEnv)
    (jobs : List Job) :
    ((scrape_jobs title loc m false env).1.Pairwise (fun a b => a.title ≠ b.title)
      ∧ ∀ x ∈ (scrape_jobs title loc m false env).1,
          (if liveJobs title loc m env = [] then get_sample_jobs title m
            else liveJobs title loc m env).find? (fun y => sameTitle y x) = some x)
    ∧ ((remove_duplicates jobs).Pairwise (fun a b => dedupKey a ≠ dedupKey b)
      ∧ (∀ x ∈ remove_duplicates jobs, jobs.find? (fun y => sameKey y x) = some x)
      ∧ (remove_duplicates jobs).Sublist jobs) := by
  have hfst : (scrape_jobs title loc m false env).1
      = dedupTrunc m (if liveJobs title loc m env = [] then get_sample_jobs title m
          else liveJobs title loc m env) := by
    simp [scrape_jobs]
  constructor
  · constructor
    · rw [hfst]
      exact dedupTruncAux_pairwise m _ [] 0
    · intro x hx
      rw [hfst] at hx
      exact dedupTruncAux_first_wins m _ [] 0 x hx
  · exact ⟨removeDupAux_pairwise jobs [],
      fun x hx => removeDupAux_first_wins jobs [] x hx,
      removeDupAux_sublist jobs []⟩

/-- C1 (witness): the amended dedup theorem applied to the duplicate-title
environment. -/
theorem C1_witness :
    (scrape_jobs "developer" "India" 10 false envDup).1.Pairwise
      (fun a b => a.title ≠ b.title) :=
  (C1_dedup_first_wins "developer" "India" 10 envDup []).1.1

/-- C2: every aggregation result, on the live path and on the sample
path, has length at most `max_jobs`. -/
theorem C2_result_length_le (t loc : String) (m : Nat) (us : Bool)
    (env : ScrapeEnv) : ((scrape_jobs t loc m us env).1).length ≤ m := by
  cases us with
  | true => simpa [scrape_jobs] using get_sample_jobs_length_le t m
  | false =>
    have hfst : (scrape_jobs t loc m false env).1
        = dedupTrunc m (if liveJobs t loc m env = [] then get_sample_jobs t m
            else liveJobs t loc m env) := by
      simp [scrape_jobs]
    rw [hfst]
    cases m with
    | zero =>
      have hl : liveJobs t loc 0 env = [] :=
        liveJobs_zero_quota t loc 0 env rfl
      rw [hl, if_pos rfl, get_sample_jobs_zero]
      simp [dedupTrunc, dedupTruncAux]
    | succ n =>
      have := dedupTruncAux_length_le (n + 1)
        (if liveJobs t loc (n + 1) env = [] then get_sample_jobs t (n + 1)
          else liveJobs t loc (n + 1) env) [] 0 (by omega)
      simpa [dedupTrunc] using this

/-- C3 (counterexample): calling the aggregation with an empty job title
does not short-circuit: the live path still performs its three adapter
network calls, refuting "validation error, zero network calls". -/
theorem C3_counterexample :
    (scrape_jobs "" "India" 5 false envNone).2 = 3
    ∧ ¬ (scrape_jobs "" "India" 5 false envNone).2 = 0 := by
  decide

/-- C3 (amended): the aggregation performs no validation of the job title;
with an empty title and `use_sample = false` it proceeds exactly as any
live call, invoking all three scrape adapters (three network calls). -/
theorem C3_no_validation (loc : String) (m : Nat) (env : ScrapeEnv) :
    (scrape_jobs "" loc m false env).2 = 3 := by
  simp [scrape_jobs]

/-- Quota of one source as computed by `JobScraper.scrape_jobs`
(lines 398, 406, 414): `max_jobs // 3`, Python floor division. -/
def quota (max_jobs : Int) : Int := Int.fdiv max_jobs 3

/-- The three per-source quotas of one `scrape_jobs` call. -/
def quotas (max_jobs : Int) : List Int := [quota max_jobs, quota max_jobs, quota max_jobs]

/-- C4: each per-source budget is the total budget floor-divided by the
source count (3) with the remainder dropped; for every nonnegative total
budget the quotas are nonnegative and sum to at most the budget. -/
theorem C4_quota_allocation (b : Int) (hb : 0 ≤ b) :
    (∀ q ∈ quotas b, q = Int.fdiv b 3 ∧ 0 ≤ q) ∧ (quotas b).sum ≤ b := by
  have h3 : (0 : Int) ≤ 3 := by omega
  have hq : Int.fdiv b 3 = b / 3 := Int.fdiv_eq_ediv b h3
  constructor
  · intro q hq2
    simp only [quotas, quota, List.mem_cons, List.not_mem_nil, or_false] at hq2
    rcases hq2 with h | h | h <;> subst h <;>
      exact ⟨rfl, Int.fdiv_nonneg hb h3⟩
  · simp only [quotas, quota, List.sum_cons, List.sum_nil, add_zero, hq]
    omega

/-- C4 (witness): the quota bound at total budget 10 (quota 3 per source,
sum 9 ≤ 10). -/
theorem C4_witness : (quotas 10).sum ≤ 10 :=
  (C4_quota_allocation 10 (by decide)).2

/-- C5 (counterexample): the Adzuna adapter applies no client-side cap:
with credentials present, `max_results = 1` and a payload of two records
it returns two postings, refuting "adapters never return more than
requested". -/
theorem C5_counterexample :
    ¬ ((fetch_from_adzuna keysAll "t" "India" 1 (some [{}, {}])).length ≤ 1) := by
  decide

/-- C5 (amended): every adapter except Adzuna enforces the requested cap
client-side (the three scrape adapters, RapidAPI JSearch, RemoteOK, and
the sample adapter return at most `max_results` postings); Adzuna only
forwards `max_results` to the server as `results_per_page` and returns at
most one posting per payload record, however many the server sends. -/
theorem C5_adapter_caps (keys : APIKeys) (t loc : String) (m : Nat)
    (cards : Option (List Card)) (p1 : Option (List JSearchRec))
    (p2 : Option (List AdzunaRec)) (p3 : Option (List RemoteOKRec)) :
    (scrape_linkedin_jobs t loc m cards).length ≤ m
    ∧ (scrape_indeed_jobs t loc m cards).length ≤ m
    ∧ (scrape_naukri_jobs t loc m cards).length ≤ m
    ∧ (fetch_from_rapidapi_jsearch keys t loc m p1).length ≤ m
    ∧ (fetch_from_remoteok t m p3).length ≤ m
    ∧ (get_sample_jobs t m).length ≤ m
    ∧ (fetch_from_adzuna keys t loc m p2).length ≤ (p2.getD []).length := by
  refine ⟨scrape_linkedin_jobs_length_le t loc m cards,
    scrape_indeed_jobs_length_le t loc m cards,
    scrape_naukri_jobs_length_le t loc m cards, ?_, ?_,
    get_sample_jobs_length_le t m, ?_⟩
  · simp only [fetch_from_rapidapi_jsearch]
    split
    · simp
    · cases p1 <;> simp [List.length_take_le]
  · cases p3 with
    | none => simp [fetch_from_remoteok]
    | some data =>
      simp only [fetch_from_remoteok]
      have := remoteokLoop_length_le (pyLower t) m (data.drop 1) 0
      omega
  · simp only [fetch_from_adzuna]
    split
    · simp
    · cases p2 <;> simp

/-- C6: fallback is all-or-nothing per call: the sample data is
substituted exactly when the combined live result is empty, so the result
is either entirely live postings (sources LinkedIn/Indeed/Naukri) or
entirely sample postings (source "Sample Data"). -/
theorem C6_fallback_all_or_nothing (t loc : String) (m : Nat) (env : ScrapeEnv) :
    (liveJobs t loc m env = [] →
        (scrape_jobs t loc m false env).1 = dedupTrunc m (get_sample_jobs t m)
        ∧ ∀ j ∈ (scrape_jobs t loc m false env).1, j.source = "Sample Data")
    ∧ (liveJobs t loc m env ≠ [] →
        (scrape_jobs t loc m false env).1 = dedupTrunc m (liveJobs t loc m env)
        ∧ ∀ j ∈ (scrape_jobs t loc m false env).1,
            j.source = "LinkedIn" ∨ j.source = "Indeed" ∨ j.source = "Naukri") := by
  have hfst : (scrape_jobs t loc m false env).1
      = dedupTrunc m (if liveJobs t loc m env = [] then get_sample_jobs t m
          else liveJobs t loc m env) := by
    simp [scrape_jobs]
  constructor
  · intro h
    have e1 : (scrape_jobs t loc m false env).1 = dedupTrunc m (get_sample_jobs t m) := by
      rw [hfst, if_pos h]
    refine ⟨e1, ?_⟩
    intro j hj
    rw [e1] at hj
    exact sample_jobs_source j
      (mem_get_sample_jobs t m j (mem_of_mem_dedupTruncAux m _ [] 0 j hj))
  · intro h
    have e1 : (scrape_jobs t loc m false env).1 = dedupTrunc m (liveJobs t loc m env) := by
      rw [hfst, if_neg h]
    refine ⟨e1, ?_⟩
    intro j hj
    rw [e1] at hj
    exact liveJobs_source t loc m env j (mem_of_mem_dedupTruncAux m _ [] 0 j hj)

/-- C6 (witness): with every portal failing, the result is the
deduplicated sample fallback. -/
theorem C6_witness :
    (scrape_jobs "x" "India" 5 false envNone).1 = dedupTrunc 5 (get_sample_jobs "x" 5) :=
  ((C6_fallback_all_or_nothing "x" "India" 5 envNone).1 (by decide)).1

/-- C7: with `use_sample = true` the aggregation returns exactly the
sample adapter's output, performs zero adapter network calls, and every
returned posting has source "Sample Data". -/
theorem C7_sample_only (t loc : String) (m : Nat) (env : ScrapeEnv) :
    scrape_jobs t loc m true env = (get_sample_jobs t m, 0)
    ∧ ∀ j ∈ (scrape_jobs t loc m true env).1, j.source = "Sample Data" := by
  have e : scrape_jobs t loc m true env = (get_sample_jobs t m, 0) := by
    simp [scrape_jobs]
  refine ⟨e, ?_⟩
  intro j hj
  rw [e] at hj
  exact sample_jobs_source j (mem_get_sample_jobs t m j hj)

/-- C7 (witness): the sample-only contract at a concrete call. -/
theorem C7_witness :
    scrape_jobs "Data Scientist" "India" 5 true envNone
      = (get_sample_jobs "Data Scientist" 5, 0) :=
  (C7_sample_only "Data Scientist" "India" 5 envNone).1

set_option maxRecDepth 8192 in
/-- C8 (counterexample): the LinkedIn scrape adapter does not truncate
descriptions: a card with a 501-character snippet yields a posting whose
description exceeds 500 characters, refuting the claim for the scrape
adapters. -/
theorem C8_counterexample :
    ¬ (∀ j ∈ scrape_linkedin_jobs "t" "India" 3 (some [cardLong]),
        j.description.length ≤ 500) := by
  decide

/-- C8 (amended): only the API adapters (RapidAPI JSearch, Adzuna,
RemoteOK) truncate descriptions to at most 500 characters, and the
bundled sample postings are all within the bound; the scrape adapters
pass the description snippet through unmodified. -/
theorem C8_description_truncation (keys : APIKeys) (t loc : String) (m : Nat)
    (p1 : Option (List JSearchRec)) (p2 : Option (List AdzunaRec))
    (p3 : Option (List RemoteOKRec)) (c : Card) (d : String) :
    (∀ j ∈ fetch_from_rapidapi_jsearch keys t loc m p1, j.description.length ≤ 500)
    ∧ (∀ j ∈ fetch_from_adzuna keys t loc m p2, j.description.length ≤ 500)
    ∧ (∀ j ∈ fetch_from_remoteok t m p3, j.description.length ≤ 500)
    ∧ (∀ j ∈ get_sample_jobs t m, j.description.length ≤ 500)
    ∧ (c.descElem = some d →
        (parse_linkedin_card loc c).description = d
        ∧ (parse_indeed_card loc c).description = d
        ∧ (parse_naukri_card loc c).description = d) := by
  refine ⟨?_, ?_, ?_, ?_, ?_⟩
  · intro j hj
    simp only [fetch_from_rapidapi_jsearch] at hj
    split at hj
    · simp at hj
    · cases p1 with
      | none => simp at hj
      | some data =>
        simp only [List.mem_map] at hj
        obtain ⟨rec, _, hrec⟩ := hj
        subst hrec
        exact pySlice_length_le _ 500
  · intro j hj
    simp only [fetch_from_adzuna] at hj
    split at hj
    · simp at hj
    · cases p2 with
      | none => simp at hj
      | some results =>
        simp only [List.mem_map] at hj
        obtain ⟨rec, _, hrec⟩ := hj
        subst hrec
        exact pySlice_length_le _ 500
  · intro j hj
    simp only [fetch_from_remoteok] at hj
    cases p3 with
    | none => simp at hj
    | some data => exact remoteokLoop_desc_le (pyLower t) m (data.drop 1) 0 j hj
  · intro j hj
    exact sample_jobs_desc_le j (mem_get_sample_jobs t m j hj)
  · intro hd
    simp [parse_linkedin_card, parse_indeed_card, parse_naukri_card, hd]

/-- C8 (witness): the truncation bound applied to concrete adapter calls
with a present description field. -/
theorem C8_witness :
    ∀ j ∈ fetch_from_rapidapi_jsearch keysAll "t" "India" 3
        (some [{ job_description := some "hello" }]), j.description.length ≤ 500 :=
  (C8_description_truncation keysAll "t" "India" 3
    (some [{ job_description := some "hello" }]) none none {} "").1

/-- C9: with `use_sample = false` and a budget of at most 2, every scrape
adapter receives quota `max_jobs // 3 = 0` and contributes nothing, so
the live phase is empty, the result is the deduplicated sample fallback
(entirely source "Sample Data"), and it is empty exactly when the budget
is 0. -/
theorem C9_small_budget_sample (t loc : String) (m : Nat) (env : ScrapeEnv)
    (hm : m ≤ 2) :
    liveJobs t loc m env = []
    ∧ (scrape_jobs t loc m false env).1 = dedupTrunc m (get_sample_jobs t m)
    ∧ ((scrape_jobs t loc m false env).1 = [] ↔ m = 0)
    ∧ ∀ j ∈ (scrape_jobs t loc m false env).1, j.source = "Sample Data" := by
  have hq : m / 3 = 0 := Nat.div_eq_of_lt (by omega)
  have hl : liveJobs t loc m env = [] := liveJobs_zero_quota t loc m env hq
  have hfst : (scrape_jobs t loc m false env).1 = dedupTrunc m (get_sample_jobs t m) := by
    simp [scrape_jobs, hl]
  refine ⟨hl, hfst, ⟨?_, ?_⟩, ?_⟩
  · intro hres
    by_contra hm0
    have h1 : 1 ≤ m := by omega
    have hs := get_sample_jobs_ne_nil t m h1
    cases hsj : get_sample_jobs t m with
    | nil => exact hs hsj
    | cons a l =>
      rw [hfst, hsj] at hres
      exact dedupTruncAux_ne_nil m a l hres
  · intro h0
    subst h0
    rw [hfst, get_sample_jobs_zero]
    rfl
  · intro j hj
    rw [hfst] at hj
    exact sample_jobs_source j
      (mem_get_sample_jobs t m j (mem_of_mem_dedupTruncAux m _ [] 0 j hj))

/-- C9 (witness): the small-budget fallback at budget 2 with all portals
failing. -/
theorem C9_witness : liveJobs "x" "India" 2 envNone = [] :=
  (C9_small_budget_sample "x" "India" 2 envNone (by decide)).1

/-- C10: for every job title and budget of at least 1 the sample adapter
returns a non-empty list; in particular, when no whitespace-separated
keyword of the lowercased title occurs in any sample posting's lowercased
title (including the keywordless empty title), it returns the first
`max_jobs` entries of the fixed ten-posting sample list. -/
theorem C10_sample_fallback_nonempty (t : String) (m : Nat) (hm : 1 ≤ m) :
    get_sample_jobs t m ≠ []
    ∧ ((∀ j ∈ sample_jobs, titleMatches (pyLower t) j = false) →
        get_sample_jobs t m = sample_jobs.take m) := by
  refine ⟨get_sample_jobs_ne_nil t m hm, ?_⟩
  intro hno
  have hfil : sample_jobs.filter (titleMatches (pyLower t)) = [] := by
    rw [List.filter_eq_nil_iff]
    intro a ha
    simp [hno a ha]
  simp [get_sample_jobs, hfil, List.take_take]

/-- C10 (witness): a query matching no sample title returns the first
three sample postings. -/
theorem C10_witness : get_sample_jobs "zzz" 3 = sample_jobs.take 3 :=
  (C10_sample_fallback_nonempty "zzz" 3 (by decide)).2 (by decide)

end Career
